import Mathlib

/-!
Verification of the text-processing core of the EduInsights PDF study
assistant (`app.py`).  The pure parts of the Python program — the
word-aligned chunker `chunk_text`, the result handling of `call_gpt`, and
the five prompt builders — are embedded as Lean functions, and the
specification's testable properties about them are settled below.
-/

namespace EduInsights

/-- Model of Python `str.split()` as used in `chunk_text` (app.py line
108): scan the characters, splitting at whitespace and discarding empty
pieces.  `acc` holds the characters of the word being read, reversed. -/
def wordsAux (cs : List Char) (acc : List Char) : List String :=
  match cs with
  | [] => if acc = [] then [] else [String.mk acc.reverse]
  | c :: rest =>
    if c.isWhitespace then
      if acc = [] then wordsAux rest [] else String.mk acc.reverse :: wordsAux rest []
    else
      wordsAux rest (c :: acc)

/-- `text.split()` from `chunk_text` (app.py line 108). -/
def splitWords (s : String) : List String :=
  wordsAux s.toList []

/-- Python `" ".join(current_chunk)` (app.py lines 116 and 123). -/
def joinSp : List String → String
  | [] => ""
  | [w] => w
  | w :: ws => w ++ " " ++ joinSp ws

/-- The loop of `chunk_text` (app.py lines 113-123).  `chunks` is the list
built so far, `cur` the words of the current chunk, `curSize` the running
size counter.  Each word first adds `len(word) + 1` to the counter; if the
counter then exceeds the budget and the current chunk is nonempty, the
current chunk is closed and a new one is started with this word, the
counter reset to `len(word)`; otherwise the word joins the current chunk. -/
def chunkLoop (chunkSize : Nat) (ws : List String)
    (chunks : List String) (cur : List String) (curSize : Nat) : List String :=
  match ws with
  | [] => if cur = [] then chunks else chunks ++ [joinSp cur]
  | w :: rest =>
    if curSize + w.length + 1 > chunkSize ∧ cur ≠ [] then
      chunkLoop chunkSize rest (chunks ++ [joinSp cur]) [w] w.length
    else
      chunkLoop chunkSize rest chunks (cur ++ [w]) (curSize + w.length + 1)

/-- `chunk_text` (app.py lines 106-125): split `text` into word-aligned
chunks whose running size counter stays within `chunkSize`. -/
def chunk_text (text : String) (chunkSize : Nat := 3000) : List String :=
  chunkLoop chunkSize (splitWords text) [] [] 0

/-- Ghost variant of `chunkLoop` that keeps every chunk as its list of
words instead of joining it eagerly; used only inside proofs. -/
def chunkGroups (chunkSize : Nat) (ws : List String)
    (chunks : List (List String)) (cur : List String) (curSize : Nat) :
    List (List String) :=
  match ws with
  | [] => if cur = [] then chunks else chunks ++ [cur]
  | w :: rest =>
    if curSize + w.length + 1 > chunkSize ∧ cur ≠ [] then
      chunkGroups chunkSize rest (chunks ++ [cur]) [w] w.length
    else
      chunkGroups chunkSize rest chunks (cur ++ [w]) (curSize + w.length + 1)

/-- Ghost measure used in proofs: the total the size counter accumulates
over a list of words, `length + 1` per word. -/
def sizeSum (ws : List String) : Nat :=
  ws.foldr (fun w n => w.length + 1 + n) 0

/-- Python slicing `s[:n]` (by characters), as used to truncate document
text in every prompt builder. -/
def pyTake (n : Nat) (s : String) : String :=
  String.mk (s.toList.take n)

/-- Outcome of the chat-completions request inside `call_gpt`: either the
response content (`response.choices[0].message.content`) or the message of
a raised exception. -/
inductive ApiOutcome where
  | success (content : String)
  | failure (err : String)

/-- Model of Python `str.strip()`: drop leading and trailing whitespace
characters. -/
def pyStrip (s : String) : String :=
  String.mk
    (((s.toList.dropWhile Char.isWhitespace).reverse.dropWhile
      Char.isWhitespace).reverse)

/-- Result handling of `call_gpt` (app.py lines 127-145): on success the
stripped content is returned; on an exception the error is displayed and
the empty string is returned. -/
def call_gpt : ApiOutcome → String
  | .success content => pyStrip content
  | .failure _ => ""

/-- `s` contains `t` as a contiguous substring. -/
def containsStr (s t : String) : Prop :=
  ∃ pre post, s = pre ++ t ++ post

/-- The prompt f-string of `generate_summary` (app.py lines 149-162). -/
def generate_summary_prompt (text user_type : String) : String :=
  "\n        As an educational AI assistant, create a comprehensive summary of the following text for "
    ++ user_type
    ++ ".\n        \n        Please provide:\n        1. Main Topic Overview\n        2. Key Concepts and Ideas\n        3. Important Details\n        4. Educational Value\n        \n        Text to summarize:\n        "
    ++ pyTake 4000 text
    ++ "\n        \n        Make the summary detailed but accessible for educational purposes.\n        "

/-- The prompt f-string of `extract_key_points` (app.py lines 168-176). -/
def extract_key_points_prompt (text : String) : String :=
  "\n        Extract the most important key points from this educational content. Format as a clear, organized list:\n        \n        Text:\n        "
    ++ pyTake 4000 text
    ++ "\n        \n        Provide 8-12 key points that capture the essential information for study purposes.\n        Format each point clearly and concisely.\n        "

/-- The prompt f-string of `generate_study_questions` (app.py lines
182-192). -/
def generate_study_questions_prompt (text : String) : String :=
  "\n        Create 10 educational study questions based on this content. Include:\n        - 4 factual/recall questions\n        - 3 analytical/understanding questions  \n        - 3 application/critical thinking questions\n        \n        Text:\n        "
    ++ pyTake 4000 text
    ++ "\n        \n        Format as numbered questions suitable for student assessment.\n        "

/-- The prompt f-string of `answer_question` (app.py lines 198-207). -/
def answer_question_prompt (question context : String) : String :=
  "\n        Based on the provided context, answer the following question clearly and comprehensively:\n        \n        Question: "
    ++ question
    ++ "\n        \n        Context:\n        "
    ++ pyTake 3500 context
    ++ "\n        \n        Provide a detailed, educational answer. If the answer isn\x27t directly in the context, say so and provide the best related information available.\n        "

/-- The prompt f-string of `create_teaching_notes` (app.py lines 213-226). -/
def create_teaching_notes_prompt (text : String) : String :=
  "\n        Create comprehensive teaching notes for educators based on this content. Include:\n        \n        1. Learning Objectives\n        2. Key Teaching Points\n        3. Discussion Questions\n        4. Activity Suggestions\n        5. Assessment Ideas\n        \n        Content:\n        "
    ++ pyTake 4000 text
    ++ "\n        \n        Format professionally for classroom use.\n        "

/-- Claim C5: `chunk_text` on the empty string returns no chunks, for any
budget. -/
theorem chunk_text_empty (B : Nat) : chunk_text "" B = [] := rfl

/-- Claim C4 counterexample: on input `"alpha beta gamma delta"` with
budget 10, `chunk_text` does not return `["alpha beta", "gamma delta"]`
(the `+1` separator accounting closes the first chunk after `"alpha"`). -/
theorem chunk_text_alpha_cex :
    chunk_text "alpha beta gamma delta" 10 ≠ ["alpha beta", "gamma delta"] := by
  decide

/-- Claim C4 (amended): on input `"alpha beta gamma delta"` with budget
10, `chunk_text` returns exactly `["alpha", "beta gamma", "delta"]`. -/
theorem chunk_text_alpha_value :
    chunk_text "alpha beta gamma delta" 10 = ["alpha", "beta gamma", "delta"] := by
  decide

theorem joinSp_nil : joinSp [] = "" := rfl

theorem joinSp_singleton (w : String) : joinSp [w] = w := rfl

theorem joinSp_cons (w : String) (l : List String) (h : l ≠ []) :
    joinSp (w :: l) = w ++ " " ++ joinSp l := by
  cases l with
  | nil => exact absurd rfl h
  | cons x xs => rfl

theorem joinSp_append (a b : List String) (ha : a ≠ []) (hb : b ≠ []) :
    joinSp (a ++ b) = joinSp a ++ " " ++ joinSp b := by
  induction a with
  | nil => exact absurd rfl ha
  | cons w a ih =>
    cases a with
    | nil => simpa using joinSp_cons w b hb
    | cons y ys =>
      have hne : y :: ys ≠ [] := by simp
      have hne2 : (y :: ys) ++ b ≠ [] := by simp
      rw [List.cons_append, joinSp_cons w _ hne2, joinSp_cons w _ hne, ih hne]
      simp [String.append_assoc]

theorem joinSp_append_word (cur : List String) (w : String) (h : cur ≠ []) :
    joinSp (cur ++ [w]) = joinSp cur ++ " " ++ w := by
  simpa [joinSp_singleton] using joinSp_append cur [w] h (by simp)

theorem join_ne_nil {gs : List (List String)} (hgs : gs ≠ [])
    (h : ∀ g ∈ gs, g ≠ []) : gs.flatten ≠ [] := by
  cases gs with
  | nil => exact absurd rfl hgs
  | cons g t =>
    have hg := h g (by simp)
    simp only [List.flatten_cons]
    intro hc
    exact hg (List.append_eq_nil.mp hc).1

theorem joinSp_map_join (gs : List (List String)) (h : ∀ g ∈ gs, g ≠ []) :
    joinSp (gs.map joinSp) = joinSp gs.flatten := by
  induction gs with
  | nil => rfl
  | cons g t ih =>
    have hg : g ≠ [] := h g (by simp)
    have ht : ∀ x ∈ t, x ≠ [] := fun x hx => h x (by simp [hx])
    cases t with
    | nil => simp [joinSp_singleton, List.flatten_cons, List.flatten_nil]
    | cons g2 t2 =>
      have hmapne : (g2 :: t2).map joinSp ≠ [] := by simp
      have hjoinne : g2 ++ t2.flatten ≠ [] := @join_ne_nil (g2 :: t2) (by simp) ht
      rw [List.map_cons, joinSp_cons _ _ hmapne, ih ht]
      show joinSp g ++ " " ++ joinSp (g2 ++ t2.flatten)
        = joinSp (g ++ (g2 ++ t2.flatten))
      rw [joinSp_append g _ hg hjoinne]

theorem sizeSum_nil : sizeSum [] = 0 := rfl

theorem sizeSum_cons (w : String) (t : List String) :
    sizeSum (w :: t) = w.length + 1 + sizeSum t := rfl

theorem sizeSum_eq (ws : List String) (h : ws ≠ []) :
    sizeSum ws = (joinSp ws).length + 1 := by
  induction ws with
  | nil => exact absurd rfl h
  | cons w t ih =>
    cases t with
    | nil => simp [sizeSum_cons, sizeSum_nil, joinSp_singleton]
    | cons y ys =>
      rw [sizeSum_cons, ih (by simp), joinSp_cons w _ (by simp),
        String.length_append, String.length_append]
      have h1 : (" " : String).length = 1 := rfl
      rw [h1]
      omega

theorem chunkLoop_eq_map (B : Nat) (ws : List String) :
    ∀ gs cur sz, chunkLoop B ws (gs.map joinSp) cur sz
      = (chunkGroups B ws gs cur sz).map joinSp := by
  induction ws with
  | nil =>
    intro gs cur sz
    simp only [chunkLoop, chunkGroups]
    by_cases h : cur = []
    · rw [if_pos h, if_pos h]
    · rw [if_neg h, if_neg h]
      simp [List.map_append]
  | cons w rest ih =>
    intro gs cur sz
    simp only [chunkLoop, chunkGroups]
    by_cases h : sz + w.length + 1 > B ∧ cur ≠ []
    · rw [if_pos h, if_pos h]
      simpa [List.map_append] using ih (gs ++ [cur]) [w] w.length
    · rw [if_neg h, if_neg h]
      exact ih gs (cur ++ [w]) (sz + w.length + 1)

theorem chunkGroups_join (B : Nat) (ws : List String) :
    ∀ gs cur sz, (chunkGroups B ws gs cur sz).flatten = gs.flatten ++ cur ++ ws := by
  induction ws with
  | nil =>
    intro gs cur sz
    simp only [chunkGroups]
    by_cases h : cur = []
    · rw [if_pos h, h]
      simp
    · rw [if_neg h]
      simp
  | cons w rest ih =>
    intro gs cur sz
    simp only [chunkGroups]
    by_cases h : sz + w.length + 1 > B ∧ cur ≠ []
    · rw [if_pos h, ih]
      simp [List.append_assoc]
    · rw [if_neg h, ih]
      simp [List.append_assoc]

theorem chunkGroups_ne_nil (B : Nat) (ws : List String) :
    ∀ gs cur sz, (∀ g ∈ gs, g ≠ []) →
      ∀ g ∈ chunkGroups B ws gs cur sz, g ≠ [] := by
  induction ws with
  | nil =>
    intro gs cur sz hgs
    simp only [chunkGroups]
    by_cases h : cur = []
    · rw [if_pos h]; exact hgs
    · rw [if_neg h]
      intro g hg
      rcases List.mem_append.mp hg with h1 | h2
      · exact hgs g h1
      · rw [List.mem_singleton.mp h2]; exact h
  | cons w rest ih =>
    intro gs cur sz hgs
    simp only [chunkGroups]
    by_cases h : sz + w.length + 1 > B ∧ cur ≠ []
    · rw [if_pos h]
      apply ih
      intro g hg
      rcases List.mem_append.mp hg with h1 | h2
      · exact hgs g h1
      · rw [List.mem_singleton.mp h2]; exact h.2
    · rw [if_neg h]
      exact ih gs (cur ++ [w]) _ hgs

theorem chunkGroups_bound (B : Nat) (ws : List String) :
    ∀ gs cur sz,
      (∀ g ∈ gs, (joinSp g).length ≤ B ∨ ∃ w, g = [w]) →
      (joinSp cur).length ≤ sz →
      (cur ≠ [] → (joinSp cur).length ≤ B ∨ ∃ w, cur = [w]) →
      ∀ g ∈ chunkGroups B ws gs cur sz,
        (joinSp g).length ≤ B ∨ ∃ w, g = [w] := by
  induction ws with
  | nil =>
    intro gs cur sz hgs _hsz hcur
    simp only [chunkGroups]
    by_cases h : cur = []
    · rw [if_pos h]; exact hgs
    · rw [if_neg h]
      intro g hg
      rcases List.mem_append.mp hg with h1 | h2
      · exact hgs g h1
      · rw [List.mem_singleton.mp h2]; exact hcur h
  | cons w rest ih =>
    intro gs cur sz hgs hsz hcur
    simp only [chunkGroups]
    by_cases h : sz + w.length + 1 > B ∧ cur ≠ []
    · rw [if_pos h]
      apply ih
      · intro g hg
        rcases List.mem_append.mp hg with h1 | h2
        · exact hgs g h1
        · rw [List.mem_singleton.mp h2]; exact hcur h.2
      · rw [joinSp_singleton]
      · intro _
        exact Or.inr ⟨w, rfl⟩
    · rw [if_neg h]
      apply ih
      · exact hgs
      · by_cases hc : cur = []
        · subst hc
          rw [List.nil_append, joinSp_singleton]
          omega
        · rw [joinSp_append_word cur w hc, String.length_append,
            String.length_append]
          have h1 : (" " : String).length = 1 := rfl
          rw [h1]
          omega
      · intro _
        by_cases hc : cur = []
        · subst hc
          exact Or.inr ⟨w, by simp⟩
        · left
          have hB : ¬ sz + w.length + 1 > B := fun hgt => h ⟨hgt, hc⟩
          rw [joinSp_append_word cur w hc, String.length_append,
            String.length_append]
          have h1 : (" " : String).length = 1 := rfl
          rw [h1]
          omega

theorem chunkGroups_fits (B : Nat) (ws : List String) :
    ∀ gs cur sz, cur ≠ [] → sz + sizeSum ws ≤ B →
      chunkGroups B ws gs cur sz = gs ++ [cur ++ ws] := by
  induction ws with
  | nil =>
    intro gs cur sz hc _h
    simp only [chunkGroups]
    rw [if_neg hc]
    simp
  | cons w rest ih =>
    intro gs cur sz hc hle
    simp only [chunkGroups]
    rw [sizeSum_cons] at hle
    have hsize : ¬ (sz + w.length + 1 > B ∧ cur ≠ []) := by
      intro hcontra
      have := hcontra.1
      omega
    rw [if_neg hsize, ih gs (cur ++ [w]) _ (by simp) (by omega)]
    simp

theorem chunk_text_eq_map (T : String) (B : Nat) :
    chunk_text T B = (chunkGroups B (splitWords T) [] [] 0).map joinSp := by
  simpa [chunk_text] using chunkLoop_eq_map B (splitWords T) [] [] 0

theorem chunkGroups_join_words (T : String) (B : Nat) :
    (chunkGroups B (splitWords T) [] [] 0).flatten = splitWords T := by
  simpa using chunkGroups_join B (splitWords T) [] [] 0

theorem mk_ne_empty (l : List Char) (h : l ≠ []) : String.mk l ≠ "" :=
  fun hc => h (congrArg String.data hc)

theorem wordsAux_ne_empty (cs : List Char) :
    ∀ acc w, w ∈ wordsAux cs acc → w ≠ "" := by
  induction cs with
  | nil =>
    intro acc w hw
    simp only [wordsAux] at hw
    by_cases h : acc = []
    · rw [if_pos h] at hw
      simp at hw
    · rw [if_neg h] at hw
      rw [List.mem_singleton.mp hw]
      exact mk_ne_empty _ (by simpa using h)
  | cons c rest ih =>
    intro acc w hw
    simp only [wordsAux] at hw
    by_cases hws : c.isWhitespace = true
    · rw [if_pos hws] at hw
      by_cases h : acc = []
      · rw [if_pos h] at hw
        exact ih [] w hw
      · rw [if_neg h] at hw
        rcases List.mem_cons.mp hw with h1 | h2
        · rw [h1]
          exact mk_ne_empty _ (by simpa using h)
        · exact ih [] w h2
    · rw [if_neg hws] at hw
      exact ih (c :: acc) w hw

theorem wordsAux_whitespace_only (cs : List Char)
    (h : ∀ c ∈ cs, c.isWhitespace = true) : wordsAux cs [] = [] := by
  induction cs with
  | nil => rfl
  | cons c rest ih =>
    have hc := h c (by simp)
    simp only [wordsAux]
    rw [if_pos hc]
    simp only [if_true]
    exact ih (fun x hx => h x (by simp [hx]))

theorem mk_toList (s : String) : String.mk s.toList = s := rfl

theorem pyTake_idem (n : Nat) (s : String) :
    pyTake n (pyTake n s) = pyTake n s := by
  simp [pyTake, List.take_take]

/-- Claim C1: for every text `T` and budget `B > 0`, joining the chunks of
`chunk_text T B` with single spaces yields exactly the
whitespace-normalized form of `T` — the words of `T` joined by single
spaces, none lost, duplicated or reordered. -/
theorem chunk_text_join_normalizes (T : String) (B : Nat) (_hB : 0 < B) :
    joinSp (chunk_text T B) = joinSp (splitWords T) := by
  have hne : ∀ g ∈ chunkGroups B (splitWords T) [] [] 0, g ≠ [] :=
    chunkGroups_ne_nil B (splitWords T) [] [] 0 (by simp)
  rw [chunk_text_eq_map, joinSp_map_join _ hne, chunkGroups_join_words]

/-- Witness for C1 at a concrete input. -/
theorem chunk_text_join_normalizes_w :
    joinSp (chunk_text "one  two\nthree" 5)
      = joinSp (splitWords "one  two\nthree") :=
  chunk_text_join_normalizes "one  two\nthree" 5 (by decide)

/-- Claim C2: with budget `B > 0`, every chunk either has length at most
`B` or is a single word of the input whose own length exceeds `B`; in
particular a chunk of two or more words never exceeds `B`. -/
theorem chunk_text_length_bound (T : String) (B : Nat) (_hB : 0 < B)
    (c : String) (hc : c ∈ chunk_text T B) :
    c.length ≤ B ∨ (B < c.length ∧ c ∈ splitWords T) := by
  rw [chunk_text_eq_map] at hc
  rcases List.mem_map.mp hc with ⟨g, hg, hgc⟩
  have hQ := chunkGroups_bound B (splitWords T) [] [] 0 (by simp)
    (by decide) (fun hcon => absurd rfl hcon) g hg
  rcases hQ with hle | ⟨w, hgw⟩
  · left
    rw [← hgc]
    exact hle
  · by_cases hlen : c.length ≤ B
    · left
      exact hlen
    · right
      refine ⟨by omega, ?_⟩
      have hw : c = w := by rw [← hgc, hgw, joinSp_singleton]
      have hmem : w ∈ (chunkGroups B (splitWords T) [] [] 0).flatten :=
        List.mem_flatten.mpr ⟨g, hg, by rw [hgw]; simp⟩
      rw [chunkGroups_join_words] at hmem
      rw [hw]
      exact hmem

/-- Witness for C2 at a concrete input. -/
theorem chunk_text_length_bound_w :
    ("aaaa" : String).length ≤ 3 ∨
      (3 < ("aaaa" : String).length ∧ "aaaa" ∈ splitWords "aaaa bb") :=
  chunk_text_length_bound "aaaa bb" 3 (by decide) "aaaa" (by decide)

/-- Claim C3 counterexample: `"ab cd"` is an already-valid chunk of length
exactly equal to the budget 5, yet `chunk_text` splits it instead of
returning it unchanged — the running counter reaches `length + 1`. -/
theorem chunk_text_rechunk_at_budget_cex :
    joinSp (splitWords "ab cd") = "ab cd" ∧ ("ab cd" : String) ≠ "" ∧
      ("ab cd" : String).length ≤ 5 ∧ chunk_text "ab cd" 5 ≠ ["ab cd"] := by
  decide

/-- Claim C3 (amended): re-chunking a nonempty already-valid chunk `c`
(its words joined by single spaces) returns `[c]` unchanged whenever
`c.length` is strictly below the budget. -/
theorem chunk_text_rechunk_idempotent (c : String) (B : Nat) (hne : c ≠ "")
    (hvalid : joinSp (splitWords c) = c) (hlen : c.length < B) :
    chunk_text c B = [c] := by
  have hws : splitWords c ≠ [] := by
    intro h
    rw [h, joinSp_nil] at hvalid
    exact hne hvalid.symm
  rw [chunk_text_eq_map]
  cases hsw : splitWords c with
  | nil => exact absurd hsw hws
  | cons w rest =>
    have hsum : w.length + 1 + sizeSum rest = c.length + 1 := by
      have h1 : sizeSum (splitWords c) = c.length + 1 := by
        rw [sizeSum_eq _ hws, hvalid]
      rw [hsw, sizeSum_cons] at h1
      exact h1
    have hsize : (0 + w.length + 1) + sizeSum rest ≤ B := by omega
    have hstep : chunkGroups B (w :: rest) [] [] 0
        = chunkGroups B rest [] [w] (0 + w.length + 1) := by
      simp only [chunkGroups]
      rw [if_neg (by simp)]
      rfl
    rw [hstep, chunkGroups_fits B rest [] [w] _ (by simp) hsize]
    show [joinSp (w :: rest)] = [c]
    rw [← hsw, hvalid]

/-- Witness for C3's amended statement at a concrete input. -/
theorem chunk_text_rechunk_idempotent_w : chunk_text "ab cd" 6 = ["ab cd"] :=
  chunk_text_rechunk_idempotent "ab cd" 6 (by decide) (by decide) (by decide)

/-- Claim C10: no chunk produced by `chunk_text` is the empty string, and
an input consisting only of whitespace characters yields no chunks. -/
theorem chunk_text_chunks_nonempty (T : String) (B : Nat) :
    (∀ c ∈ chunk_text T B, c ≠ "") ∧
      ((∀ ch ∈ T.toList, ch.isWhitespace = true) → chunk_text T B = []) := by
  constructor
  · intro c hc
    rw [chunk_text_eq_map] at hc
    rcases List.mem_map.mp hc with ⟨g, hg, hgc⟩
    have hgne : g ≠ [] :=
      chunkGroups_ne_nil B (splitWords T) [] [] 0 (by simp) g hg
    have hwords : ∀ x ∈ g, x ≠ "" := by
      intro x hx
      have hxj : x ∈ (chunkGroups B (splitWords T) [] [] 0).flatten :=
        List.mem_flatten.mpr ⟨g, hg, hx⟩
      rw [chunkGroups_join_words] at hxj
      exact wordsAux_ne_empty T.toList [] x hxj
    cases g with
    | nil => exact absurd rfl hgne
    | cons w t =>
      have hw : w ≠ "" := hwords w (by simp)
      rw [← hgc]
      cases t with
      | nil =>
        rw [joinSp_singleton]
        exact hw
      | cons y ys =>
        rw [joinSp_cons w _ (by simp)]
        intro hcon
        have hlen := congrArg String.length hcon
        rw [String.length_append, String.length_append] at hlen
        have h1 : (" " : String).length = 1 := rfl
        have h0 : ("" : String).length = 0 := rfl
        rw [h1, h0] at hlen
        omega
  · intro hws
    have hempty : splitWords T = [] := wordsAux_whitespace_only T.toList hws
    show chunkLoop B (splitWords T) [] [] 0 = []
    rw [hempty]
    rfl

/-- Witness for C10 at a concrete whitespace-only input. -/
theorem chunk_text_chunks_nonempty_w : chunk_text "  \t " 7 = [] :=
  (chunk_text_chunks_nonempty "  \t " 7).2 (by decide)

/-- Claim C6: each of the five prompts depends only on the truncated
excerpt of the document text — the first 4000 characters for summary, key
points, study questions and teaching notes, the first 3500 characters of
the context for question answering; later characters never reach the
prompt. -/
theorem prompts_prefix_only (text user_type question context : String) :
    generate_summary_prompt text user_type
        = generate_summary_prompt (pyTake 4000 text) user_type ∧
      extract_key_points_prompt text
        = extract_key_points_prompt (pyTake 4000 text) ∧
      generate_study_questions_prompt text
        = generate_study_questions_prompt (pyTake 4000 text) ∧
      create_teaching_notes_prompt text
        = create_teaching_notes_prompt (pyTake 4000 text) ∧
      answer_question_prompt question context
        = answer_question_prompt question (pyTake 3500 context) := by
  refine ⟨?_, ?_, ?_, ?_, ?_⟩ <;>
    simp [generate_summary_prompt, extract_key_points_prompt,
      generate_study_questions_prompt, create_teaching_notes_prompt,
      answer_question_prompt, pyTake_idem]

/-- Claim C8: the study-questions prompt always contains the literal
instruction demanding 10 questions split 4 factual, 3 analytical and 3
application-level. -/
theorem study_questions_instruction_present (text : String) :
    containsStr (generate_study_questions_prompt text)
      "Create 10 educational study questions based on this content. Include:\n        - 4 factual/recall questions\n        - 3 analytical/understanding questions  \n        - 3 application/critical thinking questions" := by
  refine ⟨"\n        ",
    "\n        \n        Text:\n        " ++ pyTake 4000 text
      ++ "\n        \n        Format as numbered questions suitable for student assessment.\n        ",
    ?_⟩
  have hsplit : ("\n        Create 10 educational study questions based on this content. Include:\n        - 4 factual/recall questions\n        - 3 analytical/understanding questions  \n        - 3 application/critical thinking questions\n        \n        Text:\n        " : String)
      = "\n        "
        ++ "Create 10 educational study questions based on this content. Include:\n        - 4 factual/recall questions\n        - 3 analytical/understanding questions  \n        - 3 application/critical thinking questions"
        ++ "\n        \n        Text:\n        " := rfl
  simp only [generate_study_questions_prompt]
  rw [hsplit]
  simp only [String.append_assoc]

/-- Claim C9: for any question, and any context of at most 3500
characters, the question-answering prompt contains the question verbatim,
the context verbatim, and the instruction to acknowledge when the answer
is not directly present in the context. -/
theorem qa_prompt_contains_parts (question context : String)
    (h : context.length ≤ 3500) :
    containsStr (answer_question_prompt question context) question ∧
      containsStr (answer_question_prompt question context) context ∧
      containsStr (answer_question_prompt question context)
        "If the answer isn\x27t directly in the context, say so and provide the best related information available." := by
  have hctx : pyTake 3500 context = context := by
    show String.mk (List.take 3500 context.data) = context
    rw [List.take_of_length_le h]
  refine ⟨?_, ?_, ?_⟩
  · refine ⟨"\n        Based on the provided context, answer the following question clearly and comprehensively:\n        \n        Question: ",
      "\n        \n        Context:\n        " ++ pyTake 3500 context
        ++ "\n        \n        Provide a detailed, educational answer. If the answer isn\x27t directly in the context, say so and provide the best related information available.\n        ",
      ?_⟩
    simp only [answer_question_prompt, String.append_assoc]
  · refine ⟨"\n        Based on the provided context, answer the following question clearly and comprehensively:\n        \n        Question: "
        ++ question ++ "\n        \n        Context:\n        ",
      "\n        \n        Provide a detailed, educational answer. If the answer isn\x27t directly in the context, say so and provide the best related information available.\n        ",
      ?_⟩
    simp only [answer_question_prompt, hctx, String.append_assoc]
  · refine ⟨"\n        Based on the provided context, answer the following question clearly and comprehensively:\n        \n        Question: "
        ++ question ++ "\n        \n        Context:\n        "
        ++ pyTake 3500 context
        ++ "\n        \n        Provide a detailed, educational answer. ",
      "\n        ", ?_⟩
    have hsplit : ("\n        \n        Provide a detailed, educational answer. If the answer isn\x27t directly in the context, say so and provide the best related information available.\n        " : String)
        = "\n        \n        Provide a detailed, educational answer. "
          ++ "If the answer isn\x27t directly in the context, say so and provide the best related information available."
          ++ "\n        " := rfl
    simp only [answer_question_prompt]
    rw [hsplit]
    simp only [String.append_assoc]

/-- Witness for C9 at a concrete question and context. -/
theorem qa_prompt_contains_parts_w :
    containsStr (answer_question_prompt "What is X?" "Y") "What is X?" ∧
      containsStr (answer_question_prompt "What is X?" "Y") "Y" ∧
      containsStr (answer_question_prompt "What is X?" "Y")
        "If the answer isn\x27t directly in the context, say so and provide the best related information available." :=
  qa_prompt_contains_parts "What is X?" "Y" (by decide)

/-- Claim C7 counterexample: the failure signal of `call_gpt` is the empty
string, which coincides with the value returned for a successful response
whose content is empty — the two outcomes are not distinguishable from
the returned value alone. -/
theorem call_gpt_failure_collision_cex :
    call_gpt (ApiOutcome.failure "network error")
      = call_gpt (ApiOutcome.success "") := by decide

/-- Claim C7 (amended): on failure `call_gpt` returns the empty string —
never a partial or garbled response — and this sentinel differs from the
result of any successful call whose stripped content is nonempty. -/
theorem call_gpt_failure_sentinel (e c : String) (h : pyStrip c ≠ "") :
    call_gpt (ApiOutcome.failure e) = "" ∧
      call_gpt (ApiOutcome.success c) ≠ call_gpt (ApiOutcome.failure e) := by
  refine ⟨rfl, ?_⟩
  show pyStrip c ≠ ""
  exact h

/-- Witness for C7's amended statement at a concrete outcome. -/
theorem call_gpt_failure_sentinel_w :
    call_gpt (ApiOutcome.failure "network error") = "" ∧
      call_gpt (ApiOutcome.success "hello")
        ≠ call_gpt (ApiOutcome.failure "network error") :=
  call_gpt_failure_sentinel "network error" "hello" (by decide)

end EduInsights
